import Mathlib

/-!
Shallow embedding of the domain core of the `controle-financeiro` repository:
the `Money` value object, the `SplitRule` splitter, and the `Agreement`,
`Goal` and `BudgetEnvelope` entities, together with theorems settling the
behavioural claims about them.

Numbers of the source (JavaScript `number`) are embedded as rationals, with
`Math.round` embedded as half-up rounding toward positive infinity.
Fallible operations (TS `throw`) are embedded as `Except String`.
Mutable entities are embedded as records, with mutators returning the new
record; `new Date()` timestamps are passed in as an explicit `now : Int`
parameter.
-/

namespace ControleFinanceiro

/-- Embedding of JavaScript `Math.round`: half-up, rounding halves toward
positive infinity. -/
def jsRound (x : ℚ) : ℤ := ⌊x + 1 / 2⌋

/-- `Money` from `packages/domain/src/value-objects/Money.ts`: an integer
number of cents plus a currency code. -/
structure Money where
  amountInCents : ℤ
  currency : String
deriving DecidableEq, Repr

/-- `currency.toUpperCase()` of the source, embedded character-wise over
the string's character list. -/
def upperAscii (s : String) : String := ⟨s.data.map Char.toUpper⟩

/-- Body of the `Money` constructor once its validations passed: stores
`Math.round(amount * 100)` cents and the upper-cased currency. -/
def Money.ofAmount (amount : ℚ) (currency : String) : Money :=
  { amountInCents := jsRound (amount * 100), currency := upperAscii currency }

/-- The `Money` constructor: a currency that is not a 3-letter code is
rejected. (The `Number.isFinite` check of the source cannot fail for a
rational.) -/
def Money.construct (amount : ℚ) (currency : String) : Except String Money :=
  if currency.length = 3 then .ok (Money.ofAmount amount currency)
  else .error "Currency must be a 3-letter code (ISO 4217)"

/-- `Money.fromCents`: delegates to the constructor with `amountInCents / 100`. -/
def Money.fromCents (amountInCents : ℚ) (currency : String) : Except String Money :=
  Money.construct (amountInCents / 100) currency

/-- `Money.zero`: `new Money(0, currency)` (the constructor validates the
currency). -/
def Money.zero (currency : String) : Except String Money :=
  Money.construct 0 currency

/-- The `amount` getter: `_amountInCents / 100`. -/
def Money.amount (m : Money) : ℚ := (m.amountInCents : ℚ) / 100

/-- `Money.add`: requires equal currencies, then rebuilds from
`(c₁ + c₂) / 100`. -/
def Money.add (m other : Money) : Except String Money :=
  if m.currency = other.currency then
    .ok (Money.ofAmount (((m.amountInCents + other.amountInCents : ℤ) : ℚ) / 100) m.currency)
  else
    .error ("Cannot perform operation with different currencies: "
      ++ m.currency ++ " and " ++ other.currency)

/-- `Money.subtract`: requires equal currencies, then rebuilds from
`(c₁ - c₂) / 100`. -/
def Money.subtract (m other : Money) : Except String Money :=
  if m.currency = other.currency then
    .ok (Money.ofAmount (((m.amountInCents - other.amountInCents : ℤ) : ℚ) / 100) m.currency)
  else
    .error ("Cannot perform operation with different currencies: "
      ++ m.currency ++ " and " ++ other.currency)

/-- `Money.multiply`: rebuilds from `(cents * factor) / 100`. (The
finiteness guard of the source cannot fail for a rational factor.) -/
def Money.multiply (m : Money) (factor : ℚ) : Money :=
  Money.ofAmount ((m.amountInCents : ℚ) * factor / 100) m.currency

/-- `Money.divide`: rejects a zero divisor, then rebuilds from
`cents / (divisor * 100)`. -/
def Money.divide (m : Money) (divisor : ℚ) : Except String Money :=
  if divisor = 0 then .error "Divisor must be a non-zero finite number"
  else .ok (Money.ofAmount ((m.amountInCents : ℚ) / (divisor * 100)) m.currency)

def Money.isPositive (m : Money) : Bool := 0 < m.amountInCents

def Money.isNegative (m : Money) : Bool := m.amountInCents < 0

def Money.isZero (m : Money) : Bool := m.amountInCents = 0

/-- `Money.equals`: cents and currency must both agree. -/
def Money.equals (m other : Money) : Bool :=
  m.amountInCents = other.amountInCents && m.currency = other.currency

/-- `Money.compareTo`: requires equal currencies, returns the difference of
the cents. -/
def Money.compareTo (m other : Money) : Except String ℤ :=
  if m.currency = other.currency then .ok (m.amountInCents - other.amountInCents)
  else
    .error ("Cannot perform operation with different currencies: "
      ++ m.currency ++ " and " ++ other.currency)

def Money.isGreaterThan (m other : Money) : Except String Bool :=
  match m.compareTo other with
  | .error e => .error e
  | .ok c => .ok (0 < c)

def Money.isLessThan (m other : Money) : Except String Bool :=
  match m.compareTo other with
  | .error e => .error e
  | .ok c => .ok (c < 0)

def Money.isGreaterThanOrEqual (m other : Money) : Except String Bool :=
  match m.compareTo other with
  | .error e => .error e
  | .ok c => .ok (0 ≤ c)

def Money.isLessThanOrEqual (m other : Money) : Except String Bool :=
  match m.compareTo other with
  | .error e => .error e
  | .ok c => .ok (c ≤ 0)

/-! ### Arithmetic lemmas about `Money` -/

theorem jsRound_intCast (k : ℤ) : jsRound (k : ℚ) = k := by
  unfold jsRound
  rw [Int.floor_eq_iff]
  constructor
  · linarith
  · linarith

theorem jsRound_div_hundred (k : ℤ) : jsRound ((k : ℚ) / 100 * 100) = k := by
  rw [div_mul_cancel₀]
  · exact jsRound_intCast k
  · norm_num

theorem Money.ofAmount_div_hundred (k : ℤ) (cur : String) :
    Money.ofAmount ((k : ℚ) / 100) cur = ⟨k, upperAscii cur⟩ := by
  unfold Money.ofAmount
  rw [jsRound_div_hundred]

theorem Money.construct_ok (a : ℚ) (cur : String) (hlen : cur.length = 3) :
    Money.construct a cur = .ok (Money.ofAmount a cur) := by
  unfold Money.construct
  rw [if_pos hlen]

theorem Money.zero_ok (cur : String) (hlen : cur.length = 3)
    (hup : upperAscii cur = cur) : Money.zero cur = .ok ⟨0, cur⟩ := by
  unfold Money.zero
  rw [Money.construct_ok 0 cur hlen]
  have h0 : Money.ofAmount 0 cur = ⟨0, upperAscii cur⟩ := by
    unfold Money.ofAmount jsRound
    norm_num
  rw [h0, hup]

theorem Money.add_ok (m other : Money) (h : m.currency = other.currency)
    (hup : upperAscii m.currency = m.currency) :
    m.add other = .ok ⟨m.amountInCents + other.amountInCents, m.currency⟩ := by
  unfold Money.add
  rw [if_pos h, Money.ofAmount_div_hundred, hup]

theorem Money.subtract_ok (m other : Money) (h : m.currency = other.currency)
    (hup : upperAscii m.currency = m.currency) :
    m.subtract other = .ok ⟨m.amountInCents - other.amountInCents, m.currency⟩ := by
  unfold Money.subtract
  rw [if_pos h, Money.ofAmount_div_hundred, hup]

theorem Money.divide_ok (m : Money) (d : ℚ) (hd : d ≠ 0)
    (hup : upperAscii m.currency = m.currency) :
    m.divide d = .ok ⟨jsRound ((m.amountInCents : ℚ) / d), m.currency⟩ := by
  unfold Money.divide
  rw [if_neg hd]
  have harg : (m.amountInCents : ℚ) / (d * 100) * 100 = (m.amountInCents : ℚ) / d := by
    field_simp
    ring
  unfold Money.ofAmount
  rw [harg, hup]

theorem Money.compareTo_ok (m other : Money) (h : m.currency = other.currency) :
    m.compareTo other = .ok (m.amountInCents - other.amountInCents) := by
  unfold Money.compareTo
  rw [if_pos h]

theorem Money.isGreaterThan_ok (m other : Money) (h : m.currency = other.currency) :
    m.isGreaterThan other = .ok (decide (other.amountInCents < m.amountInCents)) := by
  unfold Money.isGreaterThan
  rw [Money.compareTo_ok m other h]
  simp [Int.sub_pos]

theorem Money.isGreaterThanOrEqual_ok (m other : Money) (h : m.currency = other.currency) :
    m.isGreaterThanOrEqual other = .ok (decide (other.amountInCents ≤ m.amountInCents)) := by
  unfold Money.isGreaterThanOrEqual
  rw [Money.compareTo_ok m other h]
  simp [Int.sub_nonneg]

theorem Money.equals_iff (m other : Money) :
    m.equals other = true ↔ m = other := by
  unfold Money.equals
  cases m
  cases other
  simp_all

/-! ### SplitRule (`packages/domain/src/value-objects/SplitRule.ts`)

The TS strategies are written with exceptions raised from inside loops and
`Array.map`; they are embedded here as explicit `match`es on `Except`
values so that each `throw` site of the source corresponds to one
`.error` branch. -/

inductive SplitType where
  | EQUAL
  | PROPORTIONAL
  | FIXED
  | CUSTOM
deriving DecidableEq, Repr

structure SplitPartner where
  partnerId : String
  percentage : Option ℚ
  fixedAmount : Option Money
  customAmount : Option Money
deriving DecidableEq, Repr

structure SplitResult where
  partnerId : String
  amount : Money
  percentage : ℚ
deriving DecidableEq, Repr

/-- The configuration held by a `SplitRule`; dates are embedded as integer
timestamps. -/
structure SplitConfig where
  type : SplitType
  partners : List SplitPartner
  effectiveFrom : ℤ
  effectiveUntil : Option ℤ
deriving DecidableEq, Repr

/-- The partner-income `Map` passed to `split` for proportional rules. -/
def IncomeMap := String → Option Money

/-- `Array.map` with a possibly-throwing body, as used by the strategies. -/
def mapExcept (f : α → Except String β) : List α → Except String (List β)
  | [] => .ok []
  | a :: rest =>
    match f a with
    | .error e => .error e
    | .ok b =>
      match mapExcept f rest with
      | .error e => .error e
      | .ok bs => .ok (b :: bs)

/-- `validateAmount`: rejects negative and zero amounts, in that order. -/
def SplitRule.validateAmount (amount : Money) : Except String Unit :=
  if amount.isNegative then .error "Cannot split negative amounts"
  else if amount.isZero then .error "Cannot split zero amounts"
  else .ok ()

/-- `splitEqually`: every partner receives `amount.divide(n)` and
percentage `100 / n`. -/
def SplitRule.splitEqually (partners : List SplitPartner) (amount : Money) :
    Except String (List SplitResult) :=
  if partners.length = 0 then .error "No partners defined for equal split"
  else
    match amount.divide (partners.length : ℚ) with
    | .error e => .error e
    | .ok amountPerPartner =>
      .ok (partners.map fun p =>
        { partnerId := p.partnerId
          amount := amountPerPartner
          percentage := 100 / (partners.length : ℚ) })

/-- The income-accumulation loop of `splitProportionally`: looks up each
income, validates presence, currency and strict positivity, and sums. -/
def SplitRule.sumIncomes (incomes : IncomeMap) (cur : String) :
    List SplitPartner → Money → Except String Money
  | [], acc => .ok acc
  | p :: rest, acc =>
    match incomes p.partnerId with
    | none => .error ("Income not found for partner " ++ p.partnerId)
    | some income =>
      if income.currency = cur then
        if income.isNegative || income.isZero then
          .error ("Invalid income for partner " ++ p.partnerId)
        else
          match acc.add income with
          | .error e => .error e
          | .ok acc2 => SplitRule.sumIncomes incomes cur rest acc2
      else .error ("Income currency mismatch for partner " ++ p.partnerId)

/-- `splitProportionally`: each partner receives
`amount.multiply(percentage / 100)` with
`percentage = (income.amount / totalIncome.amount) * 100`. -/
def SplitRule.splitProportionally (partners : List SplitPartner) (amount : Money)
    (partnerIncomes : Option IncomeMap) : Except String (List SplitResult) :=
  match partnerIncomes with
  | none => .error "Partner incomes required for proportional split"
  | some incomes =>
    match Money.zero amount.currency with
    | .error e => .error e
    | .ok z =>
      match SplitRule.sumIncomes incomes amount.currency partners z with
      | .error e => .error e
      | .ok totalIncome =>
        if totalIncome.isZero then .error "Total income cannot be zero"
        else
          mapExcept (fun p =>
            match incomes p.partnerId with
            | none => .error ("Income not found for partner " ++ p.partnerId)
            | some income =>
              let percentage := income.amount / totalIncome.amount * 100
              .ok { partnerId := p.partnerId
                    amount := amount.multiply (percentage / 100)
                    percentage := percentage }) partners

/-- The fixed-amount accumulation loop of `splitByFixedAmounts`: validates
presence, currency and non-negativity, and sums. -/
def SplitRule.sumFixed (cur : String) :
    List SplitPartner → Money → Except String Money
  | [], acc => .ok acc
  | p :: rest, acc =>
    match p.fixedAmount with
    | none => .error ("Fixed amount required for partner " ++ p.partnerId)
    | some f =>
      if f.currency = cur then
        if f.isNegative then
          .error ("Fixed amount cannot be negative for partner " ++ p.partnerId)
        else
          match acc.add f with
          | .error e => .error e
          | .ok acc2 => SplitRule.sumFixed cur rest acc2
      else .error ("Fixed amount currency mismatch for partner " ++ p.partnerId)

/-- `splitByFixedAmounts`: fails when the fixed total exceeds the amount;
otherwise each partner receives its fixed amount plus the remainder divided
by the partner count. -/
def SplitRule.splitByFixedAmounts (partners : List SplitPartner) (amount : Money) :
    Except String (List SplitResult) :=
  match Money.zero amount.currency with
  | .error e => .error e
  | .ok z =>
    match SplitRule.sumFixed amount.currency partners z with
    | .error e => .error e
    | .ok totalFixedAmount =>
      match totalFixedAmount.isGreaterThan amount with
      | .error e => .error e
      | .ok gt =>
        if gt then .error "Total fixed amounts exceed the transaction amount"
        else
          match amount.subtract totalFixedAmount with
          | .error e => .error e
          | .ok remainingAmount =>
            match remainingAmount.divide (partners.length : ℚ) with
            | .error e => .error e
            | .ok additionalAmountPerPartner =>
              mapExcept (fun p =>
                match p.fixedAmount with
                | none => .error ("Fixed amount required for partner " ++ p.partnerId)
                | some f =>
                  match f.add additionalAmountPerPartner with
                  | .error e => .error e
                  | .ok finalAmount =>
                    .ok { partnerId := p.partnerId
                          amount := finalAmount
                          percentage := finalAmount.amount / amount.amount * 100 }) partners

/-- The custom-amount accumulation loop of `splitByCustomAmounts`:
validates presence and currency, and sums. -/
def SplitRule.sumCustom (cur : String) :
    List SplitPartner → Money → Except String Money
  | [], acc => .ok acc
  | p :: rest, acc =>
    match p.customAmount with
    | none => .error ("Custom amount required for partner " ++ p.partnerId)
    | some c =>
      if c.currency = cur then
        match acc.add c with
        | .error e => .error e
        | .ok acc2 => SplitRule.sumCustom cur rest acc2
      else .error ("Custom amount currency mismatch for partner " ++ p.partnerId)

/-- `splitByCustomAmounts`: the custom total must equal the amount exactly;
each partner then receives its own custom amount. -/
def SplitRule.splitByCustomAmounts (partners : List SplitPartner) (amount : Money) :
    Except String (List SplitResult) :=
  match Money.zero amount.currency with
  | .error e => .error e
  | .ok z =>
    match SplitRule.sumCustom amount.currency partners z with
    | .error e => .error e
    | .ok totalCustomAmount =>
      if totalCustomAmount.equals amount then
        mapExcept (fun p =>
          match p.customAmount with
          | none => .error ("Custom amount required for partner " ++ p.partnerId)
          | some c =>
            .ok { partnerId := p.partnerId
                  amount := c
                  percentage := c.amount / amount.amount * 100 }) partners
      else .error "Sum of custom amounts must equal the transaction amount"

/-- `SplitRule.split`: validates the amount, then dispatches on the type. -/
def SplitRule.split (cfg : SplitConfig) (amount : Money)
    (partnerIncomes : Option IncomeMap) : Except String (List SplitResult) :=
  match SplitRule.validateAmount amount with
  | .error e => .error e
  | .ok _ =>
    match cfg.type with
    | .EQUAL => SplitRule.splitEqually cfg.partners amount
    | .PROPORTIONAL => SplitRule.splitProportionally cfg.partners amount partnerIncomes
    | .FIXED => SplitRule.splitByFixedAmounts cfg.partners amount
    | .CUSTOM => SplitRule.splitByCustomAmounts cfg.partners amount

/-- The `reduce((acc, r) => acc.add(r.amount), zero)` of `validateSplit`. -/
def SplitRule.sumSplitResults : List SplitResult → Money → Except String Money
  | [], acc => .ok acc
  | r :: rest, acc =>
    match acc.add r.amount with
    | .error e => .error e
    | .ok acc2 => SplitRule.sumSplitResults rest acc2

/-- `validateSplit`: the summed results must `equals` the total. -/
def SplitRule.validateSplit (totalAmount : Money) (results : List SplitResult) :
    Except String Bool :=
  match Money.zero totalAmount.currency with
  | .error e => .error e
  | .ok z =>
    match SplitRule.sumSplitResults results z with
    | .error e => .error e
    | .ok sum => .ok (sum.equals totalAmount)

/-- `isActiveOn`: the date is in `[effectiveFrom, effectiveUntil]`, the
upper bound applying only when present. -/
def SplitRule.isActiveOn (cfg : SplitConfig) (date : ℤ) : Bool :=
  if date < cfg.effectiveFrom then false
  else
    match cfg.effectiveUntil with
    | some until2 => date ≤ until2
    | none => true

/-! ### Lemmas about the split strategies -/

/-- The cents of a partner's fixed amount (0 when absent; only used under a
hypothesis that the fixed amount is present). -/
def fixedCents (p : SplitPartner) : ℤ :=
  match p.fixedAmount with
  | some f => f.amountInCents
  | none => 0

/-- The cents of a partner's custom amount (0 when absent; only used under
a hypothesis that the custom amount is present). -/
def customCents (p : SplitPartner) : ℤ :=
  match p.customAmount with
  | some c => c.amountInCents
  | none => 0

theorem mapExcept_ok (f : α → Except String β) (g : α → β) :
    ∀ l : List α, (∀ a ∈ l, f a = .ok (g a)) → mapExcept f l = .ok (l.map g) := by
  intro l
  induction l with
  | nil => intro _; rfl
  | cons a rest ih =>
    intro h
    have ha := h a (by simp)
    have hrest := ih fun b hb => h b (by simp [hb])
    simp [mapExcept, ha, hrest]

theorem sum_map_const_int (l : List α) (k : ℤ) :
    (l.map fun _ => k).sum = l.length * k := by
  induction l with
  | nil => simp
  | cons a rest ih =>
    simp [ih]
    ring

theorem SplitRule.validateAmount_ok (amount : Money) (hpos : 0 < amount.amountInCents) :
    SplitRule.validateAmount amount = .ok () := by
  unfold SplitRule.validateAmount Money.isNegative Money.isZero
  have h1 : decide (amount.amountInCents < 0) = false := by simp; omega
  have h2 : decide (amount.amountInCents = 0) = false := by simp; omega
  rw [h1, h2]
  simp

theorem SplitRule.sumFixed_ok (cur : String) (hup : upperAscii cur = cur)
    (ps : List SplitPartner) :
    ∀ acc : Money, acc.currency = cur →
    (∀ p ∈ ps, ∃ f, p.fixedAmount = some f ∧ f.currency = cur ∧ f.isNegative = false) →
    SplitRule.sumFixed cur ps acc = .ok ⟨acc.amountInCents + (ps.map fixedCents).sum, cur⟩ := by
  induction ps with
  | nil =>
    intro acc hacc _
    obtain ⟨ac, acur⟩ := acc
    simp only [SplitRule.sumFixed, List.map_nil, List.sum_nil, add_zero]
    simp_all
  | cons p rest ih =>
    intro acc hacc hall
    obtain ⟨f, hf, hfc, hfn⟩ := hall p (by simp)
    have hadd : acc.add f = .ok ⟨acc.amountInCents + f.amountInCents, acc.currency⟩ :=
      Money.add_ok acc f (by rw [hacc, hfc]) (by rw [hacc]; exact hup)
    have ihr := ih ⟨acc.amountInCents + f.amountInCents, cur⟩ rfl
      (fun q hq => hall q (by simp [hq]))
    simp only [SplitRule.sumFixed, hf, hfc, hfn, if_true, hadd, hacc, ihr]
    simp only [fixedCents, hf, List.map_cons, List.sum_cons]
    norm_num
    ring

theorem SplitRule.sumCustom_ok (cur : String) (hup : upperAscii cur = cur)
    (ps : List SplitPartner) :
    ∀ acc : Money, acc.currency = cur →
    (∀ p ∈ ps, ∃ c, p.customAmount = some c ∧ c.currency = cur) →
    SplitRule.sumCustom cur ps acc = .ok ⟨acc.amountInCents + (ps.map customCents).sum, cur⟩ := by
  induction ps with
  | nil =>
    intro acc hacc _
    obtain ⟨ac, acur⟩ := acc
    simp only [SplitRule.sumCustom, List.map_nil, List.sum_nil, add_zero]
    simp_all
  | cons p rest ih =>
    intro acc hacc hall
    obtain ⟨c, hc, hcc⟩ := hall p (by simp)
    have hadd : acc.add c = .ok ⟨acc.amountInCents + c.amountInCents, acc.currency⟩ :=
      Money.add_ok acc c (by rw [hacc, hcc]) (by rw [hacc]; exact hup)
    have ihr := ih ⟨acc.amountInCents + c.amountInCents, cur⟩ rfl
      (fun q hq => hall q (by simp [hq]))
    simp only [SplitRule.sumCustom, hc, hcc, if_true, hadd, hacc, ihr]
    simp only [customCents, hc, List.map_cons, List.sum_cons]
    norm_num
    ring

theorem SplitRule.sumSplitResults_ok (cur : String) (hup : upperAscii cur = cur)
    (rs : List SplitResult) :
    ∀ acc : Money, acc.currency = cur →
    (∀ r ∈ rs, r.amount.currency = cur) →
    SplitRule.sumSplitResults rs acc
      = .ok ⟨acc.amountInCents + (rs.map fun r => r.amount.amountInCents).sum, cur⟩ := by
  induction rs with
  | nil =>
    intro acc hacc _
    obtain ⟨ac, acur⟩ := acc
    simp only [SplitRule.sumSplitResults, List.map_nil, List.sum_nil, add_zero]
    simp_all
  | cons r rest ih =>
    intro acc hacc hall
    have hrc := hall r (by simp)
    have hadd : acc.add r.amount
        = .ok ⟨acc.amountInCents + r.amount.amountInCents, acc.currency⟩ :=
      Money.add_ok acc r.amount (by rw [hacc, hrc]) (by rw [hacc]; exact hup)
    have ihr := ih ⟨acc.amountInCents + r.amount.amountInCents, cur⟩ rfl
      (fun q hq => hall q (by simp [hq]))
    simp only [SplitRule.sumSplitResults, hadd, hacc, ihr, List.map_cons, List.sum_cons]
    norm_num
    ring

/-- `validateSplit` on results that all carry the total's currency reduces
to a comparison of summed cents. -/
theorem SplitRule.validateSplit_char (total : Money) (rs : List SplitResult)
    (hlen : total.currency.length = 3) (hup : upperAscii total.currency = total.currency)
    (hall : ∀ r ∈ rs, r.amount.currency = total.currency) :
    SplitRule.validateSplit total rs
      = .ok (decide ((rs.map fun r => r.amount.amountInCents).sum = total.amountInCents)) := by
  unfold SplitRule.validateSplit
  simp only [Money.zero_ok total.currency hlen hup,
    SplitRule.sumSplitResults_ok total.currency hup rs ⟨0, total.currency⟩ rfl hall]
  simp [Money.equals]

theorem SplitRule.splitEqually_ok (ps : List SplitPartner) (amount : Money)
    (hne : ps ≠ []) (hup : upperAscii amount.currency = amount.currency) :
    SplitRule.splitEqually ps amount = .ok (ps.map fun p =>
      { partnerId := p.partnerId
        amount := ⟨jsRound ((amount.amountInCents : ℚ) / (ps.length : ℚ)), amount.currency⟩
        percentage := 100 / (ps.length : ℚ) }) := by
  have hn : ps.length ≠ 0 := by simpa using hne
  have hq : (ps.length : ℚ) ≠ 0 := Nat.cast_ne_zero.mpr hn
  unfold SplitRule.splitEqually
  rw [if_neg hn, Money.divide_ok amount (ps.length : ℚ) hq hup]

/-- Success case of `splitByFixedAmounts`: when every partner has a
non-negative fixed amount in the right currency and the fixed total does
not exceed the amount, each partner is allocated its fixed cents plus the
rounded equal share of the remainder. -/
theorem SplitRule.splitByFixedAmounts_ok (ps : List SplitPartner) (amount : Money)
    (hne : ps ≠ []) (hlen : amount.currency.length = 3)
    (hup : upperAscii amount.currency = amount.currency)
    (hall : ∀ p ∈ ps, ∃ f, p.fixedAmount = some f ∧ f.currency = amount.currency
      ∧ f.isNegative = false)
    (hle : (ps.map fixedCents).sum ≤ amount.amountInCents) :
    SplitRule.splitByFixedAmounts ps amount = .ok (ps.map fun p =>
      { partnerId := p.partnerId
        amount := ⟨fixedCents p
          + jsRound (((amount.amountInCents - (ps.map fixedCents).sum : ℤ) : ℚ) / (ps.length : ℚ)),
          amount.currency⟩
        percentage := (Money.amount ⟨fixedCents p
          + jsRound (((amount.amountInCents - (ps.map fixedCents).sum : ℤ) : ℚ) / (ps.length : ℚ)),
          amount.currency⟩) / amount.amount * 100 }) := by
  have hn : ps.length ≠ 0 := by simpa using hne
  have hq : (ps.length : ℚ) ≠ 0 := Nat.cast_ne_zero.mpr hn
  unfold SplitRule.splitByFixedAmounts
  have hgt : decide (amount.amountInCents < (⟨0 + (ps.map fixedCents).sum, amount.currency⟩ : Money).amountInCents) = false := by
    simp
    omega
  simp only [Money.zero_ok amount.currency hlen hup,
    SplitRule.sumFixed_ok amount.currency hup ps ⟨0, amount.currency⟩ rfl hall,
    Money.isGreaterThan_ok ⟨0 + (ps.map fixedCents).sum, amount.currency⟩ amount rfl,
    hgt, Bool.false_eq_true, if_false,
    Money.subtract_ok amount ⟨0 + (ps.map fixedCents).sum, amount.currency⟩ rfl hup,
    Money.divide_ok ⟨amount.amountInCents - (0 + (ps.map fixedCents).sum), amount.currency⟩
      (ps.length : ℚ) hq hup]
  simp only [zero_add]
  apply mapExcept_ok
  intro p hp
  obtain ⟨f, hf, hfc, _⟩ := hall p hp
  have hadd := Money.add_ok f
    ⟨jsRound (((amount.amountInCents - (ps.map fixedCents).sum : ℤ) : ℚ) / (ps.length : ℚ)),
      amount.currency⟩
    (by rw [hfc]) (by rw [hfc]; exact hup)
  simp only [hf, hadd]
  have hcents : f.amountInCents = fixedCents p := by simp [fixedCents, hf]
  simp only [hfc, hcents]

/-- Failure case of `splitByFixedAmounts`: a fixed total strictly greater
than the amount is rejected. -/
theorem SplitRule.splitByFixedAmounts_error (ps : List SplitPartner) (amount : Money)
    (hlen : amount.currency.length = 3)
    (hup : upperAscii amount.currency = amount.currency)
    (hall : ∀ p ∈ ps, ∃ f, p.fixedAmount = some f ∧ f.currency = amount.currency
      ∧ f.isNegative = false)
    (hgt : amount.amountInCents < (ps.map fixedCents).sum) :
    SplitRule.splitByFixedAmounts ps amount
      = .error "Total fixed amounts exceed the transaction amount" := by
  unfold SplitRule.splitByFixedAmounts
  have hgt2 : decide (amount.amountInCents < (⟨0 + (ps.map fixedCents).sum, amount.currency⟩ : Money).amountInCents) = true := by
    simp
    omega
  simp only [Money.zero_ok amount.currency hlen hup,
    SplitRule.sumFixed_ok amount.currency hup ps ⟨0, amount.currency⟩ rfl hall,
    Money.isGreaterThan_ok ⟨0 + (ps.map fixedCents).sum, amount.currency⟩ amount rfl,
    hgt2, if_true]

/-- Success case of `splitByCustomAmounts`: when the custom cents sum to
the amount exactly, each partner is allocated its own custom amount. -/
theorem SplitRule.splitByCustomAmounts_ok (ps : List SplitPartner) (amount : Money)
    (hlen : amount.currency.length = 3)
    (hup : upperAscii amount.currency = amount.currency)
    (hall : ∀ p ∈ ps, ∃ c, p.customAmount = some c ∧ c.currency = amount.currency)
    (hsum : (ps.map customCents).sum = amount.amountInCents) :
    SplitRule.splitByCustomAmounts ps amount = .ok (ps.map fun p =>
      { partnerId := p.partnerId
        amount := ⟨customCents p, amount.currency⟩
        percentage := (Money.amount ⟨customCents p, amount.currency⟩) / amount.amount * 100 }) := by
  unfold SplitRule.splitByCustomAmounts
  have heq : (Money.equals ⟨0 + (ps.map customCents).sum, amount.currency⟩ amount) = true := by
    simp [Money.equals]
    omega
  simp only [Money.zero_ok amount.currency hlen hup,
    SplitRule.sumCustom_ok amount.currency hup ps ⟨0, amount.currency⟩ rfl hall,
    heq, if_true]
  apply mapExcept_ok
  intro p hp
  obtain ⟨c, hc, hcc⟩ := hall p hp
  have hcents : c = ⟨customCents p, amount.currency⟩ := by
    obtain ⟨cc, ccur⟩ := c
    simp [customCents, hc]
    simp_all
  simp only [hc, ← hcents]

/-- Failure case of `splitByCustomAmounts`: a custom total different from
the amount is rejected. -/
theorem SplitRule.splitByCustomAmounts_error (ps : List SplitPartner) (amount : Money)
    (hlen : amount.currency.length = 3)
    (hup : upperAscii amount.currency = amount.currency)
    (hall : ∀ p ∈ ps, ∃ c, p.customAmount = some c ∧ c.currency = amount.currency)
    (hsum : (ps.map customCents).sum ≠ amount.amountInCents) :
    SplitRule.splitByCustomAmounts ps amount
      = .error "Sum of custom amounts must equal the transaction amount" := by
  unfold SplitRule.splitByCustomAmounts
  have heq : (Money.equals ⟨0 + (ps.map customCents).sum, amount.currency⟩ amount) = false := by
    simp [Money.equals]
    intro h
    omega
  simp only [Money.zero_ok amount.currency hlen hup,
    SplitRule.sumCustom_ok amount.currency hup ps ⟨0, amount.currency⟩ rfl hall,
    heq, Bool.false_eq_true, if_false]

/-- Half-up rounding of `c / n` multiplied back by `n` recovers `c` exactly
when and only when `n` divides `c`. -/
theorem mul_jsRound_div_eq_iff (n : ℕ) (hn : n ≠ 0) (c : ℤ) :
    (n : ℤ) * jsRound ((c : ℚ) / (n : ℚ)) = c ↔ (n : ℤ) ∣ c := by
  constructor
  · intro h
    exact ⟨jsRound ((c : ℚ) / (n : ℚ)), h.symm⟩
  · rintro ⟨k, hk⟩
    subst hk
    have hq : (n : ℚ) ≠ 0 := Nat.cast_ne_zero.mpr hn
    have : (((n : ℤ) * k : ℤ) : ℚ) / (n : ℚ) = (k : ℚ) := by
      push_cast
      field_simp
    rw [this, jsRound_intCast]

/-- Evaluation rule for `jsRound` at concrete rationals. -/
theorem jsRound_eq (q : ℚ) (z : ℤ) (h1 : (z : ℚ) ≤ q + 1 / 2)
    (h2 : q + 1 / 2 < (z : ℚ) + 1) : jsRound q = z := by
  unfold jsRound
  rw [Int.floor_eq_iff]
  exact ⟨h1, h2⟩

theorem sum_map_add_const_int (l : List α) (f : α → ℤ) (k : ℤ) :
    (l.map fun a => f a + k).sum = (l.map f).sum + l.length * k := by
  induction l with
  | nil => simp
  | cons a rest ih =>
    simp [ih]
    ring

/-! ### Claim theorems about splitting (C1, C2, C3) -/

/-- Claim C1 is false on the code: an EQUAL split of 100.00 BRL across 3
partners gives every partner `round(10000 / 3) = 3333` cents, so the
results sum to 9999 cents, not 10000, and `validateSplit` returns `false`
on the results `split` itself produced. -/
theorem equal_split_not_reconciled :
    (SplitRule.split
        ⟨SplitType.EQUAL,
          [⟨"a", none, none, none⟩, ⟨"b", none, none, none⟩, ⟨"c", none, none, none⟩],
          0, none⟩
        ⟨10000, "BRL"⟩ none).map (fun rs => rs.map fun r => r.amount.amountInCents)
      = .ok [3333, 3333, 3333]
  ∧ (SplitRule.split
        ⟨SplitType.EQUAL,
          [⟨"a", none, none, none⟩, ⟨"b", none, none, none⟩, ⟨"c", none, none, none⟩],
          0, none⟩
        ⟨10000, "BRL"⟩ none).bind
      (fun rs => SplitRule.validateSplit ⟨10000, "BRL"⟩ rs) = .ok false
  ∧ (3333 + 3333 + 3333 : ℤ) ≠ 10000 := by
  have hup : upperAscii "BRL" = "BRL" := by decide
  have hlen : ("BRL" : String).length = 3 := by decide
  have hr : jsRound ((((10000 : ℤ) : ℚ)) / (((3 : ℕ) : ℚ))) = 3333 := by
    apply jsRound_eq
    · norm_num
    · norm_num
  have hsplit :
      SplitRule.split
        ⟨SplitType.EQUAL,
          [⟨"a", none, none, none⟩, ⟨"b", none, none, none⟩, ⟨"c", none, none, none⟩],
          0, none⟩
        ⟨10000, "BRL"⟩ none
      = .ok (([⟨"a", none, none, none⟩, ⟨"b", none, none, none⟩,
          ⟨"c", none, none, none⟩] : List SplitPartner).map fun p =>
        { partnerId := p.partnerId
          amount := ⟨jsRound ((((10000 : ℤ) : ℚ)) / (((3 : ℕ) : ℚ))), "BRL"⟩
          percentage := 100 / (((3 : ℕ) : ℚ)) }) := by
    unfold SplitRule.split
    simp only [SplitRule.validateAmount_ok ⟨10000, "BRL"⟩ (by norm_num)]
    exact SplitRule.splitEqually_ok _ _ (by decide) hup
  refine ⟨?_, ?_, by norm_num⟩
  · rw [hsplit]
    simp only [Except.map, List.map_cons, List.map_nil, hr]
  · rw [hsplit]
    simp only [Except.bind]
    rw [SplitRule.validateSplit_char ⟨10000, "BRL"⟩ _ hlen hup
      (by intro r hr2; obtain ⟨p, _, rfl⟩ := List.mem_map.mp hr2; rfl)]
    simp only [List.map_cons, List.map_nil, List.sum_cons, List.sum_nil, hr]
    norm_num

/-- Claim C1 (amended): reconciliation is not a postcondition of every
strategy. For an EQUAL split the results sum to
`n * round(totalCents / n)` cents, which equals the total exactly when and
only when `n` divides the cents; for a FIXED split they sum to the fixed
total plus `n * round(remainderCents / n)`, reconciling exactly when and
only when `n` divides the remainder cents; a CUSTOM split always
reconciles exactly. -/
theorem split_reconciliation_amended :
    (∀ (cfg : SplitConfig) (amount : Money),
      cfg.type = SplitType.EQUAL → cfg.partners ≠ [] →
      amount.currency.length = 3 → upperAscii amount.currency = amount.currency →
      0 < amount.amountInCents →
      ∃ rs, SplitRule.split cfg amount none = .ok rs ∧
        (rs.map fun r => r.amount.amountInCents).sum
          = cfg.partners.length
            * jsRound ((amount.amountInCents : ℚ) / (cfg.partners.length : ℚ)) ∧
        (SplitRule.validateSplit amount rs = .ok true ↔
          (cfg.partners.length : ℤ) ∣ amount.amountInCents))
  ∧ (∀ (cfg : SplitConfig) (amount : Money),
      cfg.type = SplitType.FIXED → cfg.partners ≠ [] →
      amount.currency.length = 3 → upperAscii amount.currency = amount.currency →
      0 < amount.amountInCents →
      (∀ p ∈ cfg.partners, ∃ f, p.fixedAmount = some f ∧ f.currency = amount.currency
        ∧ f.isNegative = false) →
      (cfg.partners.map fixedCents).sum ≤ amount.amountInCents →
      ∃ rs, SplitRule.split cfg amount none = .ok rs ∧
        (rs.map fun r => r.amount.amountInCents).sum
          = (cfg.partners.map fixedCents).sum + cfg.partners.length
            * jsRound (((amount.amountInCents - (cfg.partners.map fixedCents).sum : ℤ) : ℚ)
              / (cfg.partners.length : ℚ)) ∧
        (SplitRule.validateSplit amount rs = .ok true ↔
          (cfg.partners.length : ℤ) ∣ (amount.amountInCents - (cfg.partners.map fixedCents).sum)))
  ∧ (∀ (cfg : SplitConfig) (amount : Money) (rs : List SplitResult),
      cfg.type = SplitType.CUSTOM →
      amount.currency.length = 3 → upperAscii amount.currency = amount.currency →
      0 < amount.amountInCents →
      (∀ p ∈ cfg.partners, ∃ c, p.customAmount = some c ∧ c.currency = amount.currency) →
      SplitRule.split cfg amount none = .ok rs →
      (rs.map fun r => r.amount.amountInCents).sum = amount.amountInCents ∧
      SplitRule.validateSplit amount rs = .ok true) := by
  refine ⟨?_, ?_, ?_⟩
  · -- EQUAL
    intro cfg amount ht hne hlen hup hpos
    have hn : cfg.partners.length ≠ 0 := by simpa using hne
    have hsplit := SplitRule.splitEqually_ok cfg.partners amount hne hup
    have hsum : (((cfg.partners.map fun p =>
        ({ partnerId := p.partnerId
           amount := ⟨jsRound ((amount.amountInCents : ℚ) / (cfg.partners.length : ℚ)),
             amount.currency⟩
           percentage := 100 / (cfg.partners.length : ℚ) } : SplitResult)).map
          fun r => r.amount.amountInCents).sum)
        = cfg.partners.length
          * jsRound ((amount.amountInCents : ℚ) / (cfg.partners.length : ℚ)) := by
      rw [List.map_map]
      exact sum_map_const_int cfg.partners _
    refine ⟨_, ?_, hsum, ?_⟩
    · unfold SplitRule.split
      simp only [SplitRule.validateAmount_ok amount hpos, ht]
      exact hsplit
    · rw [SplitRule.validateSplit_char amount _ hlen hup
        (by intro r hr2; obtain ⟨p, _, rfl⟩ := List.mem_map.mp hr2; rfl)]
      rw [hsum]
      simp only [Except.ok.injEq, decide_eq_true_eq]
      exact mul_jsRound_div_eq_iff cfg.partners.length hn amount.amountInCents
  · -- FIXED
    intro cfg amount ht hne hlen hup hpos hall hle
    have hn : cfg.partners.length ≠ 0 := by simpa using hne
    have hsplit := SplitRule.splitByFixedAmounts_ok cfg.partners amount hne hlen hup hall hle
    have hsum : (((cfg.partners.map fun p =>
        ({ partnerId := p.partnerId
           amount := ⟨fixedCents p
             + jsRound (((amount.amountInCents - (cfg.partners.map fixedCents).sum : ℤ) : ℚ)
               / (cfg.partners.length : ℚ)), amount.currency⟩
           percentage := (Money.amount ⟨fixedCents p
             + jsRound (((amount.amountInCents - (cfg.partners.map fixedCents).sum : ℤ) : ℚ)
               / (cfg.partners.length : ℚ)), amount.currency⟩) / amount.amount * 100 }
          : SplitResult)).map fun r => r.amount.amountInCents).sum)
        = (cfg.partners.map fixedCents).sum + cfg.partners.length
          * jsRound (((amount.amountInCents - (cfg.partners.map fixedCents).sum : ℤ) : ℚ)
            / (cfg.partners.length : ℚ)) := by
      rw [List.map_map]
      exact sum_map_add_const_int cfg.partners fixedCents _
    refine ⟨_, ?_, hsum, ?_⟩
    · unfold SplitRule.split
      simp only [SplitRule.validateAmount_ok amount hpos, ht]
      exact hsplit
    · rw [SplitRule.validateSplit_char amount _ hlen hup
        (by intro r hr2; obtain ⟨p, _, rfl⟩ := List.mem_map.mp hr2; rfl)]
      rw [hsum]
      simp only [Except.ok.injEq, decide_eq_true_eq]
      have hiff := mul_jsRound_div_eq_iff cfg.partners.length hn
        (amount.amountInCents - (cfg.partners.map fixedCents).sum)
      constructor
      · intro h
        exact hiff.mp (by linarith)
      · intro h
        have := hiff.mpr h
        linarith
  · -- CUSTOM
    intro cfg amount rs ht hlen hup hpos hall hok
    unfold SplitRule.split at hok
    simp only [SplitRule.validateAmount_ok amount hpos, ht] at hok
    by_cases hsum : (cfg.partners.map customCents).sum = amount.amountInCents
    · rw [SplitRule.splitByCustomAmounts_ok cfg.partners amount hlen hup hall hsum] at hok
      injection hok with hok
      subst hok
      have hfun : ((fun r : SplitResult => r.amount.amountInCents) ∘
          fun p : SplitPartner =>
            ({ partnerId := p.partnerId
               amount := ⟨customCents p, amount.currency⟩
               percentage := (Money.amount ⟨customCents p, amount.currency⟩)
                 / amount.amount * 100 } : SplitResult)) = customCents := rfl
      have hsc : ((cfg.partners.map fun p =>
          ({ partnerId := p.partnerId
             amount := ⟨customCents p, amount.currency⟩
             percentage := (Money.amount ⟨customCents p, amount.currency⟩)
               / amount.amount * 100 } : SplitResult)).map
            fun r => r.amount.amountInCents).sum = amount.amountInCents := by
        rw [List.map_map, hfun]
        exact hsum
      refine ⟨hsc, ?_⟩
      rw [SplitRule.validateSplit_char amount _ hlen hup
        (by intro r hr2; obtain ⟨p, _, rfl⟩ := List.mem_map.mp hr2; rfl)]
      simp only [Except.ok.injEq, decide_eq_true_eq]
      rw [List.map_map, hfun]
      exact hsum
    · rw [SplitRule.splitByCustomAmounts_error cfg.partners amount hlen hup hall hsum] at hok
      exact absurd hok (by simp)

/-- Witness for the amended claim C1: an EQUAL split of 100.00 BRL across
2 partners, where 2 divides 10000, so the reconciliation holds. -/
theorem split_reconciliation_amended_witness :
    ∃ rs, SplitRule.split
        ⟨SplitType.EQUAL, [⟨"a", none, none, none⟩, ⟨"b", none, none, none⟩], 0, none⟩
        ⟨10000, "BRL"⟩ none = .ok rs ∧
      (rs.map fun r => r.amount.amountInCents).sum
        = ([⟨"a", none, none, none⟩, ⟨"b", none, none, none⟩] : List SplitPartner).length
          * jsRound ((((10000 : ℤ) : ℚ))
            / ((([⟨"a", none, none, none⟩, ⟨"b", none, none, none⟩] : List SplitPartner).length : ℚ))) ∧
      (SplitRule.validateSplit ⟨10000, "BRL"⟩ rs = .ok true ↔
        ((([⟨"a", none, none, none⟩, ⟨"b", none, none, none⟩] : List SplitPartner).length : ℤ))
          ∣ (10000 : ℤ)) :=
  split_reconciliation_amended.1
    ⟨SplitType.EQUAL, [⟨"a", none, none, none⟩, ⟨"b", none, none, none⟩], 0, none⟩
    ⟨10000, "BRL"⟩ rfl (by decide) (by decide) (by decide) (by norm_num)

/-- Claim C2: for a FIXED rule whose partners all carry non-negative fixed
amounts in the input's currency, `split` fails with the fixed-amount-exceeded
error when the fixed total is strictly greater than the amount, and
otherwise gives each partner its fixed cents plus the remainder divided
equally (with rounding) across all partners. -/
theorem fixed_split_behavior (cfg : SplitConfig) (amount : Money)
    (ht : cfg.type = SplitType.FIXED) (hne : cfg.partners ≠ [])
    (hlen : amount.currency.length = 3)
    (hup : upperAscii amount.currency = amount.currency)
    (hpos : 0 < amount.amountInCents)
    (hall : ∀ p ∈ cfg.partners, ∃ f, p.fixedAmount = some f
      ∧ f.currency = amount.currency ∧ f.isNegative = false) :
    (amount.amountInCents < (cfg.partners.map fixedCents).sum →
      SplitRule.split cfg amount none
        = .error "Total fixed amounts exceed the transaction amount")
  ∧ ((cfg.partners.map fixedCents).sum ≤ amount.amountInCents →
      SplitRule.split cfg amount none = .ok (cfg.partners.map fun p =>
        { partnerId := p.partnerId
          amount := ⟨fixedCents p
            + jsRound (((amount.amountInCents - (cfg.partners.map fixedCents).sum : ℤ) : ℚ)
              / (cfg.partners.length : ℚ)), amount.currency⟩
          percentage := (Money.amount ⟨fixedCents p
            + jsRound (((amount.amountInCents - (cfg.partners.map fixedCents).sum : ℤ) : ℚ)
              / (cfg.partners.length : ℚ)), amount.currency⟩) / amount.amount * 100 })) := by
  constructor
  · intro hgt
    unfold SplitRule.split
    simp only [SplitRule.validateAmount_ok amount hpos, ht]
    exact SplitRule.splitByFixedAmounts_error cfg.partners amount hlen hup hall hgt
  · intro hle
    unfold SplitRule.split
    simp only [SplitRule.validateAmount_ok amount hpos, ht]
    exact SplitRule.splitByFixedAmounts_ok cfg.partners amount hne hlen hup hall hle

/-- Witness for claim C2: fixed amounts of 30.00 and 20.00 BRL on a
100.00 BRL total for 2 partners give final cents 5500 and 4500, that is,
55.00 and 45.00 BRL. -/
theorem fixed_split_behavior_witness :
    (SplitRule.split
        ⟨SplitType.FIXED,
          [⟨"a", none, some ⟨3000, "BRL"⟩, none⟩, ⟨"b", none, some ⟨2000, "BRL"⟩, none⟩],
          0, none⟩
        ⟨10000, "BRL"⟩ none).map (fun rs => rs.map fun r => r.amount.amountInCents)
      = .ok [5500, 4500] := by
  have h := (fixed_split_behavior
    ⟨SplitType.FIXED,
      [⟨"a", none, some ⟨3000, "BRL"⟩, none⟩, ⟨"b", none, some ⟨2000, "BRL"⟩, none⟩],
      0, none⟩
    ⟨10000, "BRL"⟩ rfl (by decide) (by decide) (by decide) (by norm_num)
    (by
      intro p hp
      fin_cases hp
      · exact ⟨_, rfl, rfl, by decide⟩
      · exact ⟨_, rfl, rfl, by decide⟩)).2
    (by
      simp only [List.map_cons, List.map_nil, List.sum_cons, List.sum_nil, fixedCents]
      norm_num)
  rw [h]
  have hj : jsRound (2500 : ℚ) = 2500 := by
    apply jsRound_eq <;> norm_num
  simp only [Except.map, List.map_cons, List.map_nil, List.sum_cons, List.sum_nil, fixedCents]
  norm_num [hj]

/-- Claim C3: for a CUSTOM rule whose partners all carry custom amounts in
the input's currency, `split` succeeds exactly when the custom cents sum
to the amount, allocating each partner its own custom amount with no
remainder distribution, and otherwise fails with the custom-amount-mismatch
error. -/
theorem custom_split_behavior (cfg : SplitConfig) (amount : Money)
    (ht : cfg.type = SplitType.CUSTOM)
    (hlen : amount.currency.length = 3)
    (hup : upperAscii amount.currency = amount.currency)
    (hpos : 0 < amount.amountInCents)
    (hall : ∀ p ∈ cfg.partners, ∃ c, p.customAmount = some c
      ∧ c.currency = amount.currency) :
    ((cfg.partners.map customCents).sum = amount.amountInCents →
      SplitRule.split cfg amount none = .ok (cfg.partners.map fun p =>
        { partnerId := p.partnerId
          amount := ⟨customCents p, amount.currency⟩
          percentage := (Money.amount ⟨customCents p, amount.currency⟩)
            / amount.amount * 100 }))
  ∧ ((cfg.partners.map customCents).sum ≠ amount.amountInCents →
      SplitRule.split cfg amount none
        = .error "Sum of custom amounts must equal the transaction amount") := by
  constructor
  · intro hsum
    unfold SplitRule.split
    simp only [SplitRule.validateAmount_ok amount hpos, ht]
    exact SplitRule.splitByCustomAmounts_ok cfg.partners amount hlen hup hall hsum
  · intro hsum
    unfold SplitRule.split
    simp only [SplitRule.validateAmount_ok amount hpos, ht]
    exact SplitRule.splitByCustomAmounts_error cfg.partners amount hlen hup hall hsum

/-- Witness for claim C3: custom amounts of 40.00 and 60.00 BRL on a
100.00 BRL total succeed with allocations of exactly 4000 and 6000 cents,
while custom amounts of 40.00 and 50.00 BRL fail with the mismatch error. -/
theorem custom_split_behavior_witness :
    (SplitRule.split
        ⟨SplitType.CUSTOM,
          [⟨"a", none, none, some ⟨4000, "BRL"⟩⟩, ⟨"b", none, none, some ⟨6000, "BRL"⟩⟩],
          0, none⟩
        ⟨10000, "BRL"⟩ none).map (fun rs => rs.map fun r => r.amount.amountInCents)
      = .ok [4000, 6000]
  ∧ SplitRule.split
      ⟨SplitType.CUSTOM,
        [⟨"a", none, none, some ⟨4000, "BRL"⟩⟩, ⟨"b", none, none, some ⟨5000, "BRL"⟩⟩],
        0, none⟩
      ⟨10000, "BRL"⟩ none
    = .error "Sum of custom amounts must equal the transaction amount" := by
  constructor
  · have h := (custom_split_behavior
      ⟨SplitType.CUSTOM,
        [⟨"a", none, none, some ⟨4000, "BRL"⟩⟩, ⟨"b", none, none, some ⟨6000, "BRL"⟩⟩],
        0, none⟩
      ⟨10000, "BRL"⟩ rfl (by decide) (by decide) (by norm_num)
      (by
        intro p hp
        fin_cases hp
        · exact ⟨_, rfl, rfl⟩
        · exact ⟨_, rfl, rfl⟩)).1 (by decide)
    rw [h]
    simp [Except.map, customCents]
  · exact (custom_split_behavior
      ⟨SplitType.CUSTOM,
        [⟨"a", none, none, some ⟨4000, "BRL"⟩⟩, ⟨"b", none, none, some ⟨5000, "BRL"⟩⟩],
        0, none⟩
      ⟨10000, "BRL"⟩ rfl (by decide) (by decide) (by norm_num)
      (by
        intro p hp
        fin_cases hp
        · exact ⟨_, rfl, rfl⟩
        · exact ⟨_, rfl, rfl⟩)).2 (by decide)

/-- Claim C4: constructing `Money` rounds each operand to cents half-up
independently, and `add` then adds the cents exactly:
`Money(a).add(Money(b))` carries `round(a*100) + round(b*100)` cents. -/
theorem money_add_cents (a b : ℚ) (cur : String) (hlen : cur.length = 3)
    (hup : upperAscii cur = cur) :
    Money.construct a cur = .ok (Money.ofAmount a cur)
  ∧ Money.construct b cur = .ok (Money.ofAmount b cur)
  ∧ (Money.ofAmount a cur).add (Money.ofAmount b cur)
      = .ok ⟨jsRound (a * 100) + jsRound (b * 100), cur⟩ := by
  refine ⟨Money.construct_ok a cur hlen, Money.construct_ok b cur hlen, ?_⟩
  have h1 : Money.ofAmount a cur = ⟨jsRound (a * 100), cur⟩ := by
    unfold Money.ofAmount
    rw [hup]
  have h2 : Money.ofAmount b cur = ⟨jsRound (b * 100), cur⟩ := by
    unfold Money.ofAmount
    rw [hup]
  rw [h1, h2]
  exact Money.add_ok ⟨jsRound (a * 100), cur⟩ ⟨jsRound (b * 100), cur⟩ rfl hup

/-- Witness for claim C4: `Money(0.1).add(Money(0.2))` has 30 cents and
amount `0.3`. -/
theorem money_add_cents_witness :
    (Money.ofAmount (1 / 10) "BRL").add (Money.ofAmount (2 / 10) "BRL") = .ok ⟨30, "BRL"⟩
  ∧ Money.amount ⟨30, "BRL"⟩ = 3 / 10 := by
  have h := (money_add_cents (1 / 10) (2 / 10) "BRL" (by decide) (by decide)).2.2
  have ha : jsRound ((1 / 10 : ℚ) * 100) = 10 := by
    apply jsRound_eq <;> norm_num
  have hb : jsRound ((2 / 10 : ℚ) * 100) = 20 := by
    apply jsRound_eq <;> norm_num
  constructor
  · rw [h, ha, hb]
    norm_num
  · unfold Money.amount
    norm_num

/-! ### Agreement (`packages/domain/src/entities/Transaction.ts`)

Only the fields that participate in the status lifecycle are embedded;
name, description, split rule, alert settings, tags and metadata are
carried by the entity but never read or written by `suspend`, `resume` or
`terminate`. The generated uuid and the before/after value snapshots of a
history entry are likewise not modelled. -/

inductive AgreementStatus where
  | ACTIVE
  | INACTIVE
  | SUSPENDED
  | TERMINATED
deriving DecidableEq, Repr

structure AgreementHistoryEntry where
  timestamp : ℤ
  changedBy : String
  changeType : String
  reason : String
deriving DecidableEq, Repr

structure Agreement where
  householdId : String
  status : AgreementStatus
  effectiveFrom : ℤ
  effectiveUntil : Option ℤ
  updatedAt : ℤ
  history : List AgreementHistoryEntry
deriving DecidableEq, Repr

/-- `addHistoryEntry`: pushes an immutable entry onto the history log. -/
def Agreement.addHistoryEntry (a : Agreement) (changeType : String)
    (timestamp : ℤ) (changedBy : String) (reason : String) : Agreement :=
  { a with history := a.history ++ [⟨timestamp, changedBy, changeType, reason⟩] }

/-- `Agreement.suspend`: only an ACTIVE agreement can be suspended. -/
def Agreement.suspend (a : Agreement) (changedBy : String)
    (reason : Option String) (now : ℤ) : Except String Agreement :=
  if a.status ≠ AgreementStatus.ACTIVE then
    .error "Only active agreements can be suspended"
  else
    .ok (Agreement.addHistoryEntry
      { a with status := AgreementStatus.SUSPENDED, updatedAt := now }
      "suspended" now changedBy (reason.getD "Agreement suspended"))

/-- `Agreement.resume`: only a SUSPENDED agreement can be resumed. -/
def Agreement.resume (a : Agreement) (changedBy : String)
    (reason : Option String) (now : ℤ) : Except String Agreement :=
  if a.status ≠ AgreementStatus.SUSPENDED then
    .error "Only suspended agreements can be resumed"
  else
    .ok (Agreement.addHistoryEntry
      { a with status := AgreementStatus.ACTIVE, updatedAt := now }
      "resumed" now changedBy (reason.getD "Agreement resumed"))

/-- `Agreement.terminate`: fails when already TERMINATED, otherwise sets
the status to TERMINATED and `effectiveUntil` to now. -/
def Agreement.terminate (a : Agreement) (changedBy : String)
    (reason : Option String) (now : ℤ) : Except String Agreement :=
  if a.status = AgreementStatus.TERMINATED then
    .error "Agreement is already terminated"
  else
    .ok (Agreement.addHistoryEntry
      { a with
          status := AgreementStatus.TERMINATED
          effectiveUntil := some now
          updatedAt := now }
      "terminated" now changedBy (reason.getD "Agreement terminated"))

/-! ### Goal (`packages/domain/src/entities/Goal.ts`)

Only the fields read or written by the claims under verification are
embedded; name, description, type, owners, auto-contribution settings,
tags, colors and metadata never interact with the contribution and status
logic. The uuid of a new contribution is passed in as `newId`. -/

inductive GoalStatus where
  | ACTIVE
  | PAUSED
  | COMPLETED
  | CANCELLED
deriving DecidableEq, Repr

structure Contribution where
  id : String
  date : ℤ
  amount : Money
  contributorId : String
  contributorName : String
  isAutoContribution : Bool
  notes : Option String
deriving DecidableEq, Repr

structure Goal where
  householdId : String
  targetAmount : Money
  currentAmount : Money
  targetDate : ℤ
  status : GoalStatus
  contributionHistory : List Contribution
  updatedAt : ℤ
deriving DecidableEq, Repr

/-- `getRemainingAmount`: `targetAmount.subtract(currentAmount)`. -/
def Goal.getRemainingAmount (g : Goal) : Except String Money :=
  g.targetAmount.subtract g.currentAmount

/-- `Goal.addContribution`: guards in source order (completed, cancelled,
currency, positivity, overshoot), then accumulates, appends one history
entry, and auto-completes with a clamp when the target is reached. -/
def Goal.addContribution (g : Goal) (amount : Money)
    (contributorId contributorName : String) (isAutoContribution : Bool)
    (notes : Option String) (newId : String) (now : ℤ) : Except String Goal :=
  if g.status = GoalStatus.COMPLETED then
    .error "Cannot add contribution to completed goal"
  else if g.status = GoalStatus.CANCELLED then
    .error "Cannot add contribution to cancelled goal"
  else if amount.currency ≠ g.targetAmount.currency then
    .error "Contribution currency must match goal currency"
  else if amount.isNegative || amount.isZero then
    .error "Contribution amount must be positive"
  else
    match g.getRemainingAmount with
    | .error e => .error e
    | .ok remainingAmount =>
      match amount.isGreaterThan remainingAmount with
      | .error e => .error e
      | .ok gt =>
        if gt then .error "Contribution exceeds remaining amount needed"
        else
          match g.currentAmount.add amount with
          | .error e => .error e
          | .ok newCurrent =>
            let g1 := { g with
              currentAmount := newCurrent
              updatedAt := now
              contributionHistory := g.contributionHistory
                ++ [(⟨newId, now, amount, contributorId, contributorName,
                  isAutoContribution, notes⟩ : Contribution)] }
            match g1.currentAmount.isGreaterThanOrEqual g1.targetAmount with
            | .error e => .error e
            | .ok reached =>
              if reached then
                .ok { g1 with
                  status := GoalStatus.COMPLETED
                  currentAmount := g1.targetAmount }
              else .ok g1

/-- The `findIndex` + `splice(index, 1)` pair of `removeContribution`:
finds the first contribution with the given id and returns it together
with the list with that one entry removed. -/
def removeFirstContribution (cid : String) :
    List Contribution → Option (Contribution × List Contribution)
  | [] => none
  | c :: rest =>
    if c.id = cid then some (c, rest)
    else
      match removeFirstContribution cid rest with
      | none => none
      | some (d, l) => some (d, c :: l)

/-- `Goal.removeContribution`: removes the first entry with the given id,
subtracts its amount, and reverts COMPLETED to ACTIVE unconditionally. -/
def Goal.removeContribution (g : Goal) (contributionId : String) (now : ℤ) :
    Except String Goal :=
  match removeFirstContribution contributionId g.contributionHistory with
  | none => .error "Contribution not found"
  | some (c, rest) =>
    match g.currentAmount.subtract c.amount with
    | .error e => .error e
    | .ok newCurrent =>
      .ok { g with
        currentAmount := newCurrent
        contributionHistory := rest
        updatedAt := now
        status := if g.status = GoalStatus.COMPLETED then GoalStatus.ACTIVE
          else g.status }

/-- `Goal.updateStatus`: sets the requested status with no guard. -/
def Goal.updateStatus (g : Goal) (newStatus : GoalStatus) (now : ℤ) : Goal :=
  { g with status := newStatus, updatedAt := now }

/-- `Goal.pause`: only guards against COMPLETED. -/
def Goal.pause (g : Goal) (now : ℤ) : Except String Goal :=
  if g.status = GoalStatus.COMPLETED then .error "Cannot pause completed goal"
  else .ok { g with status := GoalStatus.PAUSED, updatedAt := now }

/-- `Goal.resume`: only a PAUSED goal can be resumed. -/
def Goal.resume (g : Goal) (now : ℤ) : Except String Goal :=
  if g.status ≠ GoalStatus.PAUSED then .error "Only paused goals can be resumed"
  else .ok { g with status := GoalStatus.ACTIVE, updatedAt := now }

/-- `Goal.cancel`: only guards against COMPLETED. -/
def Goal.cancel (g : Goal) (now : ℤ) : Except String Goal :=
  if g.status = GoalStatus.COMPLETED then .error "Cannot cancel completed goal"
  else .ok { g with status := GoalStatus.CANCELLED, updatedAt := now }

/-- `Goal.complete`: no guard; sets COMPLETED and clamps the current
amount to the target. -/
def Goal.complete (g : Goal) (now : ℤ) : Goal :=
  { g with
    status := GoalStatus.COMPLETED
    currentAmount := g.targetAmount
    updatedAt := now }

/-- `Goal.updateTargetAmount`: validates currency and positivity, then may
auto-complete when the current amount already reaches the new target. -/
def Goal.updateTargetAmount (g : Goal) (newTargetAmount : Money) (now : ℤ) :
    Except String Goal :=
  if newTargetAmount.currency ≠ g.targetAmount.currency then
    .error "Target amount currency must match goal currency"
  else if newTargetAmount.isNegative || newTargetAmount.isZero then
    .error "Target amount must be positive"
  else
    let g1 := { g with targetAmount := newTargetAmount, updatedAt := now }
    match g1.currentAmount.isGreaterThanOrEqual g1.targetAmount with
    | .error e => .error e
    | .ok reached =>
      if reached then
        .ok { g1 with
          status := GoalStatus.COMPLETED
          currentAmount := g1.targetAmount }
      else .ok g1

/-! ### BudgetEnvelope (`packages/domain/src/entities/Partner.ts`)

Only the fields read or written by the claims under verification are
embedded; type, category, owner, period, rollover settings, period dates,
colors, tags and metadata do not interact with the spending totals or the
alert bands. -/

structure EnvelopeAlerts where
  enabled : Bool
  warnAtPercentage : ℚ
  criticalAtPercentage : ℚ
  emailNotification : Bool
  pushNotification : Bool
deriving DecidableEq, Repr

structure BudgetEnvelope where
  householdId : String
  name : String
  limit : Money
  spent : Money
  alerts : EnvelopeAlerts
  updatedAt : ℤ
deriving DecidableEq, Repr

/-- `getAvailable`: `limit.subtract(spent)`. -/
def BudgetEnvelope.getAvailable (e : BudgetEnvelope) : Except String Money :=
  e.limit.subtract e.spent

/-- `getSpentPercentage`: 0 for a zero limit, else
`spent.amount / limit.amount * 100`. -/
def BudgetEnvelope.getSpentPercentage (e : BudgetEnvelope) : ℚ :=
  if e.limit.isZero then 0 else e.spent.amount / e.limit.amount * 100

/-- `isOverBudget`: `spent.isGreaterThan(limit)`. -/
def BudgetEnvelope.isOverBudget (e : BudgetEnvelope) : Except String Bool :=
  e.spent.isGreaterThan e.limit

/-- `shouldWarn`: alerts enabled and spent percentage in
`[warnAtPercentage, criticalAtPercentage)`. -/
def BudgetEnvelope.shouldWarn (e : BudgetEnvelope) : Bool :=
  if !e.alerts.enabled then false
  else
    decide (e.alerts.warnAtPercentage ≤ e.getSpentPercentage)
      && decide (e.getSpentPercentage < e.alerts.criticalAtPercentage)

/-- `shouldAlertCritical`: alerts enabled and spent percentage at least
`criticalAtPercentage`. -/
def BudgetEnvelope.shouldAlertCritical (e : BudgetEnvelope) : Bool :=
  if !e.alerts.enabled then false
  else decide (e.alerts.criticalAtPercentage ≤ e.getSpentPercentage)

/-- `addSpending`: requires matching currency and a non-negative amount,
then accumulates into `spent`. -/
def BudgetEnvelope.addSpending (e : BudgetEnvelope) (amount : Money) (now : ℤ) :
    Except String BudgetEnvelope :=
  if amount.currency ≠ e.limit.currency then
    .error "Spending amount currency must match envelope currency"
  else if amount.isNegative then
    .error "Spending amount cannot be negative"
  else
    match e.spent.add amount with
    | .error msg => .error msg
    | .ok newSpent => .ok { e with spent := newSpent, updatedAt := now }

/-- `removeSpending`: same guards as `addSpending`, then subtracts from
`spent` with no lower bound. -/
def BudgetEnvelope.removeSpending (e : BudgetEnvelope) (amount : Money) (now : ℤ) :
    Except String BudgetEnvelope :=
  if amount.currency ≠ e.limit.currency then
    .error "Spending amount currency must match envelope currency"
  else if amount.isNegative then
    .error "Spending amount cannot be negative"
  else
    match e.spent.subtract amount with
    | .error msg => .error msg
    | .ok newSpent => .ok { e with spent := newSpent, updatedAt := now }

/-! ### Claim theorems about the entities (C5..C10) -/

/-- Claim C5: `suspend` fails exactly when the agreement is not ACTIVE,
`resume` fails exactly when it is not SUSPENDED, `terminate` fails exactly
when it is already TERMINATED and otherwise sets the status to TERMINATED
with `effectiveUntil = now`; from TERMINATED all three transitions fail,
so TERMINATED is never left. -/
theorem agreement_state_machine :
    (∀ (a : Agreement) (cb : String) (r : Option String) (now : ℤ),
      (∃ msg, a.suspend cb r now = .error msg) ↔ a.status ≠ AgreementStatus.ACTIVE)
  ∧ (∀ (a : Agreement) (cb : String) (r : Option String) (now : ℤ),
      (∃ msg, a.resume cb r now = .error msg) ↔ a.status ≠ AgreementStatus.SUSPENDED)
  ∧ (∀ (a : Agreement) (cb : String) (r : Option String) (now : ℤ),
      (∃ msg, a.terminate cb r now = .error msg) ↔ a.status = AgreementStatus.TERMINATED)
  ∧ (∀ (a : Agreement) (cb : String) (r : Option String) (now : ℤ),
      a.status ≠ AgreementStatus.TERMINATED →
      ∃ a2, a.terminate cb r now = .ok a2 ∧ a2.status = AgreementStatus.TERMINATED
        ∧ a2.effectiveUntil = some now)
  ∧ (∀ (a : Agreement) (cb : String) (r : Option String) (now : ℤ),
      a.status = AgreementStatus.TERMINATED →
      (∃ msg, a.suspend cb r now = .error msg)
      ∧ (∃ msg, a.resume cb r now = .error msg)
      ∧ (∃ msg, a.terminate cb r now = .error msg)) := by
  refine ⟨?_, ?_, ?_, ?_, ?_⟩
  · intro a cb r now
    unfold Agreement.suspend
    by_cases h : a.status = AgreementStatus.ACTIVE <;> simp [h]
  · intro a cb r now
    unfold Agreement.resume
    by_cases h : a.status = AgreementStatus.SUSPENDED <;> simp [h]
  · intro a cb r now
    unfold Agreement.terminate
    by_cases h : a.status = AgreementStatus.TERMINATED <;> simp [h]
  · intro a cb r now h
    unfold Agreement.terminate
    rw [if_neg h]
    exact ⟨_, rfl, rfl, rfl⟩
  · intro a cb r now h
    refine ⟨⟨"Only active agreements can be suspended", ?_⟩,
      ⟨"Only suspended agreements can be resumed", ?_⟩,
      ⟨"Agreement is already terminated", ?_⟩⟩
    · unfold Agreement.suspend
      rw [if_pos (by simp [h])]
    · unfold Agreement.resume
      rw [if_pos (by simp [h])]
    · unfold Agreement.terminate
      rw [if_pos h]

/-- Witness for claim C5: terminating an ACTIVE agreement at time 7
succeeds, leaving status TERMINATED and `effectiveUntil = 7`. -/
theorem agreement_state_machine_witness :
    ∃ a2, Agreement.terminate ⟨"h", AgreementStatus.ACTIVE, 0, none, 0, []⟩
        "partner-1" none 7 = .ok a2
      ∧ a2.status = AgreementStatus.TERMINATED
      ∧ a2.effectiveUntil = some (7 : ℤ) :=
  agreement_state_machine.2.2.2.1 ⟨"h", AgreementStatus.ACTIVE, 0, none, 0, []⟩
    "partner-1" none 7 (by decide)

/-- Claim C6: on a goal that is neither COMPLETED nor CANCELLED, a positive
same-currency contribution strictly exceeding the remaining amount is
rejected; otherwise it is accepted, the current amount grows by exactly the
contribution, exactly one history entry is appended, the status flips to
COMPLETED exactly when the target is reached, and the current amount never
exceeds the target. -/
theorem goal_add_contribution_behavior (g : Goal) (amount : Money)
    (contributorId contributorName : String) (isAuto : Bool)
    (notes : Option String) (newId : String) (now : ℤ)
    (hs1 : g.status ≠ GoalStatus.COMPLETED) (hs2 : g.status ≠ GoalStatus.CANCELLED)
    (hc : amount.currency = g.targetAmount.currency)
    (hinv : g.currentAmount.currency = g.targetAmount.currency)
    (hup : upperAscii g.targetAmount.currency = g.targetAmount.currency)
    (hpos : 0 < amount.amountInCents) :
    (g.targetAmount.amountInCents - g.currentAmount.amountInCents < amount.amountInCents →
      g.addContribution amount contributorId contributorName isAuto notes newId now
        = .error "Contribution exceeds remaining amount needed")
  ∧ (amount.amountInCents ≤ g.targetAmount.amountInCents - g.currentAmount.amountInCents →
      ∃ g2, g.addContribution amount contributorId contributorName isAuto notes newId now
          = .ok g2
        ∧ g2.currentAmount.amountInCents
            = g.currentAmount.amountInCents + amount.amountInCents
        ∧ g2.contributionHistory = g.contributionHistory
            ++ [⟨newId, now, amount, contributorId, contributorName, isAuto, notes⟩]
        ∧ g2.status = (if g.targetAmount.amountInCents
              ≤ g.currentAmount.amountInCents + amount.amountInCents
            then GoalStatus.COMPLETED else g.status)
        ∧ g2.currentAmount.amountInCents ≤ g.targetAmount.amountInCents) := by
  have hbpos : (amount.isNegative || amount.isZero) = false := by
    simp [Money.isNegative, Money.isZero]
    omega
  have hccond : ¬(amount.currency ≠ g.targetAmount.currency) := by simp [hc]
  have hrem : g.getRemainingAmount
      = .ok ⟨g.targetAmount.amountInCents - g.currentAmount.amountInCents,
        g.targetAmount.currency⟩ :=
    Money.subtract_ok g.targetAmount g.currentAmount hinv.symm hup
  have hgtlem := Money.isGreaterThan_ok amount
    ⟨g.targetAmount.amountInCents - g.currentAmount.amountInCents,
      g.targetAmount.currency⟩ hc
  have hcadd : g.currentAmount.add amount
      = .ok ⟨g.currentAmount.amountInCents + amount.amountInCents,
        g.currentAmount.currency⟩ :=
    Money.add_ok g.currentAmount amount (hinv.trans hc.symm) (by rw [hinv]; exact hup)
  constructor
  · intro hover
    unfold Goal.addContribution
    have hdec : decide ((⟨g.targetAmount.amountInCents - g.currentAmount.amountInCents,
        g.targetAmount.currency⟩ : Money).amountInCents < amount.amountInCents) = true := by
      simp
      omega
    simp only [if_neg hs1, if_neg hs2, if_neg hccond, hbpos, Bool.false_eq_true,
      if_false, hrem, hgtlem, hdec, if_true]
  · intro hle
    unfold Goal.addContribution
    have hdec : decide ((⟨g.targetAmount.amountInCents - g.currentAmount.amountInCents,
        g.targetAmount.currency⟩ : Money).amountInCents < amount.amountInCents) = false := by
      simp
      omega
    have hge := Money.isGreaterThanOrEqual_ok
      ⟨g.currentAmount.amountInCents + amount.amountInCents, g.currentAmount.currency⟩
      g.targetAmount hinv
    simp only [if_neg hs1, if_neg hs2, if_neg hccond, hbpos, Bool.false_eq_true,
      if_false, hrem, hgtlem, hdec, hcadd, hge]
    by_cases hreach : g.targetAmount.amountInCents
        ≤ g.currentAmount.amountInCents + amount.amountInCents
    · have hdec2 : decide (g.targetAmount.amountInCents
          ≤ g.currentAmount.amountInCents + amount.amountInCents) = true := by
        simp [hreach]
      simp only [hdec2, if_true]
      refine ⟨_, rfl, ?_, rfl, ?_, ?_⟩
      · show g.targetAmount.amountInCents
          = g.currentAmount.amountInCents + amount.amountInCents
        omega
      · show GoalStatus.COMPLETED = if g.targetAmount.amountInCents
            ≤ g.currentAmount.amountInCents + amount.amountInCents
          then GoalStatus.COMPLETED else g.status
        rw [if_pos hreach]
      · show g.targetAmount.amountInCents ≤ g.targetAmount.amountInCents
        omega
    · have hdec2 : decide (g.targetAmount.amountInCents
          ≤ g.currentAmount.amountInCents + amount.amountInCents) = false := by
        simp [hreach]
      simp only [hdec2, Bool.false_eq_true, if_false]
      refine ⟨_, rfl, rfl, rfl, ?_, ?_⟩
      · show g.status = if g.targetAmount.amountInCents
            ≤ g.currentAmount.amountInCents + amount.amountInCents
          then GoalStatus.COMPLETED else g.status
        rw [if_neg hreach]
      · show g.currentAmount.amountInCents + amount.amountInCents
          ≤ g.targetAmount.amountInCents
        omega

/-- Witness for claim C6: contributing exactly the remaining 100.00 BRL
to an empty goal with a 100.00 BRL target completes the goal with the
current amount equal to the target. -/
theorem goal_add_contribution_behavior_witness :
    ∃ g2, Goal.addContribution
        ⟨"h", ⟨10000, "BRL"⟩, ⟨0, "BRL"⟩, 100, GoalStatus.ACTIVE, [], 0⟩
        ⟨10000, "BRL"⟩ "p1" "Ana" false none "c1" 5 = .ok g2
      ∧ g2.currentAmount.amountInCents = 0 + 10000
      ∧ g2.contributionHistory
          = ([] : List Contribution) ++ [⟨"c1", 5, ⟨10000, "BRL"⟩, "p1", "Ana", false, none⟩]
      ∧ g2.status = (if (10000 : ℤ) ≤ 0 + 10000 then GoalStatus.COMPLETED
          else GoalStatus.ACTIVE)
      ∧ g2.currentAmount.amountInCents ≤ (10000 : ℤ) :=
  (goal_add_contribution_behavior
    ⟨"h", ⟨10000, "BRL"⟩, ⟨0, "BRL"⟩, 100, GoalStatus.ACTIVE, [], 0⟩
    ⟨10000, "BRL"⟩ "p1" "Ana" false none "c1" 5
    (by decide) (by decide) rfl rfl (by decide) (by decide)).2 (by decide)

/-- Claim C7 is false on the code: `pause()` only guards against
COMPLETED, so pausing a CANCELLED goal succeeds and moves it to PAUSED —
a public operation that moves a goal out of the CANCELLED status. -/
theorem goal_cancelled_not_terminal_counterexample :
    Goal.pause ⟨"h", ⟨10000, "BRL"⟩, ⟨0, "BRL"⟩, 100, GoalStatus.CANCELLED, [], 0⟩ 1
      = .ok ⟨"h", ⟨10000, "BRL"⟩, ⟨0, "BRL"⟩, 100, GoalStatus.PAUSED, [], 1⟩
  ∧ GoalStatus.PAUSED ≠ GoalStatus.CANCELLED := by
  constructor
  · rfl
  · decide

/-- Claim C7 (amended): COMPLETED blocks pause, cancel, resume and
addContribution, complete keeps it, and removeContribution is the exit to
ACTIVE; CANCELLED, however, is not terminal: resume and addContribution
fail on a cancelled goal, but pause moves it to PAUSED, complete moves it
to COMPLETED, and updateStatus sets any requested status unconditionally. -/
theorem goal_terminal_status_amended :
    (∀ (g : Goal) (now : ℤ), g.status = GoalStatus.COMPLETED →
      (∃ msg, g.pause now = .error msg)
      ∧ (∃ msg, g.cancel now = .error msg)
      ∧ (∃ msg, g.resume now = .error msg)
      ∧ (∀ (amount : Money) (cid cn : String) (auto : Bool) (notes : Option String)
          (nid : String) (now2 : ℤ),
          ∃ msg, g.addContribution amount cid cn auto notes nid now2 = .error msg)
      ∧ (g.complete now).status = GoalStatus.COMPLETED)
  ∧ (∀ (g : Goal) (cid : String) (now : ℤ) (g2 : Goal),
      g.status = GoalStatus.COMPLETED → g.removeContribution cid now = .ok g2 →
      g2.status = GoalStatus.ACTIVE)
  ∧ (∀ (g : Goal) (now : ℤ), g.status = GoalStatus.CANCELLED →
      (∃ msg, g.resume now = .error msg)
      ∧ (∀ (amount : Money) (cid cn : String) (auto : Bool) (notes : Option String)
          (nid : String) (now2 : ℤ),
          ∃ msg, g.addContribution amount cid cn auto notes nid now2 = .error msg)
      ∧ (∃ g2, g.pause now = .ok g2 ∧ g2.status = GoalStatus.PAUSED)
      ∧ (g.complete now).status = GoalStatus.COMPLETED
      ∧ (∀ s : GoalStatus, (g.updateStatus s now).status = s)) := by
  refine ⟨?_, ?_, ?_⟩
  · intro g now h
    refine ⟨⟨"Cannot pause completed goal", ?_⟩,
      ⟨"Cannot cancel completed goal", ?_⟩,
      ⟨"Only paused goals can be resumed", ?_⟩, ?_, rfl⟩
    · unfold Goal.pause
      rw [if_pos h]
    · unfold Goal.cancel
      rw [if_pos h]
    · unfold Goal.resume
      rw [if_pos (by simp [h])]
    · intro amount cid cn auto notes nid now2
      refine ⟨"Cannot add contribution to completed goal", ?_⟩
      unfold Goal.addContribution
      rw [if_pos h]
  · intro g cid now g2 h hok
    cases hrf : removeFirstContribution cid g.contributionHistory with
    | none =>
      simp only [Goal.removeContribution, hrf] at hok
      exact absurd hok (by simp)
    | some cr =>
      obtain ⟨c, rest⟩ := cr
      cases hsub : g.currentAmount.subtract c.amount with
      | error msg =>
        simp only [Goal.removeContribution, hrf, hsub] at hok
        exact absurd hok (by simp)
      | ok newCurrent =>
        simp only [Goal.removeContribution, hrf, hsub, Except.ok.injEq] at hok
        subst hok
        simp [h]
  · intro g now h
    refine ⟨⟨"Only paused goals can be resumed", ?_⟩, ?_,
      ⟨{ g with status := GoalStatus.PAUSED, updatedAt := now }, ?_, rfl⟩, rfl,
      fun s => rfl⟩
    · unfold Goal.resume
      rw [if_pos (by simp [h])]
    · intro amount cid cn auto notes nid now2
      refine ⟨"Cannot add contribution to cancelled goal", ?_⟩
      unfold Goal.addContribution
      rw [if_neg (by simp [h]), if_pos h]
    · unfold Goal.pause
      rw [if_neg (by simp [h])]

/-- Witness for the amended claim C7: a concrete CANCELLED goal, on which
resume and addContribution fail while pause, complete and updateStatus all
leave the CANCELLED status. -/
theorem goal_terminal_status_amended_witness :
    (∃ msg, Goal.resume
      ⟨"h", ⟨10000, "BRL"⟩, ⟨0, "BRL"⟩, 100, GoalStatus.CANCELLED, [], 0⟩ 1
        = .error msg)
  ∧ (∀ (amount : Money) (cid cn : String) (auto : Bool) (notes : Option String)
      (nid : String) (now2 : ℤ),
      ∃ msg, Goal.addContribution
        ⟨"h", ⟨10000, "BRL"⟩, ⟨0, "BRL"⟩, 100, GoalStatus.CANCELLED, [], 0⟩
        amount cid cn auto notes nid now2 = .error msg)
  ∧ (∃ g2, Goal.pause
      ⟨"h", ⟨10000, "BRL"⟩, ⟨0, "BRL"⟩, 100, GoalStatus.CANCELLED, [], 0⟩ 1 = .ok g2
      ∧ g2.status = GoalStatus.PAUSED)
  ∧ (Goal.complete
      ⟨"h", ⟨10000, "BRL"⟩, ⟨0, "BRL"⟩, 100, GoalStatus.CANCELLED, [], 0⟩ 1).status
      = GoalStatus.COMPLETED
  ∧ (∀ s : GoalStatus, (Goal.updateStatus
      ⟨"h", ⟨10000, "BRL"⟩, ⟨0, "BRL"⟩, 100, GoalStatus.CANCELLED, [], 0⟩ s 1).status = s) :=
  goal_terminal_status_amended.2.2
    ⟨"h", ⟨10000, "BRL"⟩, ⟨0, "BRL"⟩, 100, GoalStatus.CANCELLED, [], 0⟩ 1 rfl

theorem removeFirstContribution_none (cid : String) (l : List Contribution)
    (h : ∀ d ∈ l, d.id ≠ cid) : removeFirstContribution cid l = none := by
  induction l with
  | nil => rfl
  | cons d rest ih =>
    have hd : d.id ≠ cid := h d (by simp)
    have hrest := ih fun e he => h e (by simp [he])
    simp [removeFirstContribution, hd, hrest]

theorem removeFirstContribution_append (cid : String) (l1 : List Contribution)
    (c : Contribution) (l2 : List Contribution)
    (h1 : ∀ d ∈ l1, d.id ≠ cid) (hc : c.id = cid) :
    removeFirstContribution cid (l1 ++ c :: l2) = some (c, l1 ++ l2) := by
  induction l1 with
  | nil => simp [removeFirstContribution, hc]
  | cons d rest ih =>
    have hd : d.id ≠ cid := h1 d (by simp)
    have hrest := ih fun e he => h1 e (by simp [he])
    simp [removeFirstContribution, hd, hrest]

/-- Claim C8: `removeContribution` on an absent id fails with the
not-found error; on the first present entry it subtracts exactly that
entry's amount, removes exactly that entry, and flips COMPLETED to ACTIVE
unconditionally while leaving any other status unchanged. -/
theorem goal_remove_contribution_behavior (g : Goal) (cid : String) (now : ℤ) :
    ((∀ d ∈ g.contributionHistory, d.id ≠ cid) →
      g.removeContribution cid now = .error "Contribution not found")
  ∧ (∀ (l1 : List Contribution) (c : Contribution) (l2 : List Contribution),
      g.contributionHistory = l1 ++ c :: l2 →
      (∀ d ∈ l1, d.id ≠ cid) → c.id = cid →
      c.amount.currency = g.currentAmount.currency →
      upperAscii g.currentAmount.currency = g.currentAmount.currency →
      g.removeContribution cid now = .ok { g with
        currentAmount := ⟨g.currentAmount.amountInCents - c.amount.amountInCents,
          g.currentAmount.currency⟩
        contributionHistory := l1 ++ l2
        updatedAt := now
        status := if g.status = GoalStatus.COMPLETED then GoalStatus.ACTIVE
          else g.status }) := by
  constructor
  · intro habs
    simp only [Goal.removeContribution, removeFirstContribution_none cid _ habs]
  · intro l1 c l2 hhist h1 hcid hcur hup
    have hrf : removeFirstContribution cid g.contributionHistory = some (c, l1 ++ l2) := by
      rw [hhist]
      exact removeFirstContribution_append cid l1 c l2 h1 hcid
    have hsub : g.currentAmount.subtract c.amount
        = .ok ⟨g.currentAmount.amountInCents - c.amount.amountInCents,
          g.currentAmount.currency⟩ :=
      Money.subtract_ok g.currentAmount c.amount hcur.symm hup
    simp only [Goal.removeContribution, hrf, hsub]

/-- Witness for claim C8: removing the only contribution of a COMPLETED
goal subtracts its 500 cents, empties the history and reverts the status
to ACTIVE even though the remaining amount is below the target. -/
theorem goal_remove_contribution_behavior_witness :
    Goal.removeContribution
      ⟨"h", ⟨10000, "BRL"⟩, ⟨10000, "BRL"⟩, 100, GoalStatus.COMPLETED,
        [⟨"c1", 0, ⟨500, "BRL"⟩, "p1", "Ana", false, none⟩], 0⟩ "c1" 9
      = .ok ⟨"h", ⟨10000, "BRL"⟩, ⟨10000 - 500, "BRL"⟩, 100,
        (if GoalStatus.COMPLETED = GoalStatus.COMPLETED then GoalStatus.ACTIVE
          else GoalStatus.COMPLETED),
        ([] : List Contribution) ++ [], 9⟩ :=
  (goal_remove_contribution_behavior
    ⟨"h", ⟨10000, "BRL"⟩, ⟨10000, "BRL"⟩, 100, GoalStatus.COMPLETED,
      [⟨"c1", 0, ⟨500, "BRL"⟩, "p1", "Ana", false, none⟩], 0⟩ "c1" 9).2
    [] ⟨"c1", 0, ⟨500, "BRL"⟩, "p1", "Ana", false, none⟩ [] rfl (by simp) rfl rfl
    (by decide)

/-- Claim C9: `shouldWarn` holds exactly when alerts are enabled and the
spent percentage lies in the warn band, `shouldAlertCritical` exactly when
alerts are enabled and the percentage is at least the critical threshold;
the two are never both true, and exactly one of no-alert, warn and
critical holds. -/
theorem envelope_alert_bands (e : BudgetEnvelope) :
    (e.shouldWarn = true ↔ e.alerts.enabled = true
      ∧ e.alerts.warnAtPercentage ≤ e.getSpentPercentage
      ∧ e.getSpentPercentage < e.alerts.criticalAtPercentage)
  ∧ (e.shouldAlertCritical = true ↔ e.alerts.enabled = true
      ∧ e.alerts.criticalAtPercentage ≤ e.getSpentPercentage)
  ∧ ¬(e.shouldWarn = true ∧ e.shouldAlertCritical = true)
  ∧ ((if e.shouldWarn = false ∧ e.shouldAlertCritical = false then 1 else 0)
      + (if e.shouldWarn = true then 1 else 0)
      + (if e.shouldAlertCritical = true then 1 else 0) = (1 : ℕ)) := by
  have hw : e.shouldWarn = true ↔ e.alerts.enabled = true
      ∧ e.alerts.warnAtPercentage ≤ e.getSpentPercentage
      ∧ e.getSpentPercentage < e.alerts.criticalAtPercentage := by
    unfold BudgetEnvelope.shouldWarn
    cases he : e.alerts.enabled <;> simp [he]
  have hcr : e.shouldAlertCritical = true ↔ e.alerts.enabled = true
      ∧ e.alerts.criticalAtPercentage ≤ e.getSpentPercentage := by
    unfold BudgetEnvelope.shouldAlertCritical
    cases he : e.alerts.enabled <;> simp [he]
  have hexcl : ¬(e.shouldWarn = true ∧ e.shouldAlertCritical = true) := by
    rintro ⟨h1, h2⟩
    obtain ⟨-, -, hlt⟩ := hw.mp h1
    obtain ⟨-, hge⟩ := hcr.mp h2
    linarith
  refine ⟨hw, hcr, hexcl, ?_⟩
  cases hsw : e.shouldWarn <;> cases hsc : e.shouldAlertCritical <;> simp [hsw, hsc]
  exact hexcl ⟨hsw, hsc⟩

/-- Claim C10: `removeSpending` with a non-negative same-currency amount
always succeeds and subtracts blindly: the spent total goes below zero
whenever the amount exceeds it, and `getAvailable` then exceeds the
configured limit. -/
theorem envelope_remove_spending_unbounded (e : BudgetEnvelope) (amount : Money)
    (now : ℤ)
    (hc : amount.currency = e.limit.currency)
    (hsc : e.spent.currency = e.limit.currency)
    (hup : upperAscii e.spent.currency = e.spent.currency)
    (hnn : 0 ≤ amount.amountInCents) :
    ∃ e2, e.removeSpending amount now = .ok e2
      ∧ e2.spent.amountInCents = e.spent.amountInCents - amount.amountInCents
      ∧ (e.spent.amountInCents < amount.amountInCents → e2.spent.amountInCents < 0)
      ∧ e2.getAvailable = .ok ⟨e.limit.amountInCents
          - (e.spent.amountInCents - amount.amountInCents), e.limit.currency⟩
      ∧ (e.spent.amountInCents < amount.amountInCents →
          ∀ av, e2.getAvailable = .ok av → e.limit.amountInCents < av.amountInCents) := by
  have hneg : amount.isNegative = false := by
    simp [Money.isNegative]
    omega
  have hccond : ¬(amount.currency ≠ e.limit.currency) := by simp [hc]
  have hsub : e.spent.subtract amount
      = .ok ⟨e.spent.amountInCents - amount.amountInCents, e.spent.currency⟩ :=
    Money.subtract_ok e.spent amount (hsc.trans hc.symm) hup
  have havail : BudgetEnvelope.getAvailable { e with
      spent := ⟨e.spent.amountInCents - amount.amountInCents, e.spent.currency⟩
      updatedAt := now }
      = .ok ⟨e.limit.amountInCents - (e.spent.amountInCents - amount.amountInCents),
        e.limit.currency⟩ := by
    unfold BudgetEnvelope.getAvailable
    exact Money.subtract_ok e.limit
      ⟨e.spent.amountInCents - amount.amountInCents, e.spent.currency⟩ hsc.symm
      (by rw [← hsc]; exact hup)
  refine ⟨_, ?_, rfl, ?_, havail, ?_⟩
  · unfold BudgetEnvelope.removeSpending
    simp only [if_neg hccond, hneg, Bool.false_eq_true, if_false, hsub]
  · intro hover
    show e.spent.amountInCents - amount.amountInCents < 0
    omega
  · intro hover av hav
    rw [havail] at hav
    simp only [Except.ok.injEq] at hav
    subst hav
    show e.limit.amountInCents
      < e.limit.amountInCents - (e.spent.amountInCents - amount.amountInCents)
    omega

/-- Witness for claim C10: removing a 10.00 BRL spending from an envelope
that has spent nothing drives the spent total to -1000 cents and makes
the available amount 11000 cents, above the 10000-cent limit. -/
theorem envelope_remove_spending_unbounded_witness :
    ∃ e2, BudgetEnvelope.removeSpending
        ⟨"h", "food", ⟨10000, "BRL"⟩, ⟨0, "BRL"⟩, ⟨true, 80, 95, true, true⟩, 0⟩
        ⟨1000, "BRL"⟩ 3 = .ok e2
      ∧ e2.spent.amountInCents = 0 - 1000
      ∧ ((0 : ℤ) < 1000 → e2.spent.amountInCents < 0)
      ∧ e2.getAvailable = .ok ⟨10000 - (0 - 1000), "BRL"⟩
      ∧ ((0 : ℤ) < 1000 →
          ∀ av, e2.getAvailable = .ok av → (10000 : ℤ) < av.amountInCents) :=
  envelope_remove_spending_unbounded
    ⟨"h", "food", ⟨10000, "BRL"⟩, ⟨0, "BRL"⟩, ⟨true, 80, 95, true, true⟩, 0⟩
    ⟨1000, "BRL"⟩ 3 rfl rfl (by decide) (by decide)

end ControleFinanceiro
